import Mathlib

/-!
# Verification of the Meridian post-fit analysis engine

Shallow embedding of `meridian/analysis/analyzer.py`,
`meridian/analysis/visualizer.py` and the adstock/Hill transforms of
`meridian/model/adstock_hill.py` (the latter module is absent from the
sources; it is modelled from the specification and from its unit tests in
`meridian/model/adstock_hill_test.py`).

Conventions of the embedding:
* float tensors are modelled over `ℚ` where every operation is rational
  (divisions, sums, comparisons), and over `ℝ` where the Hill saturation
  transform needs real exponents (`x ** slope` with a real slope);
* a tensor axis of unknown extent is a function `ℕ → _` together with an
  explicit count, or a `List _` when the axis is concatenated along
  (the channel axis);
* `tf.math.divide_no_nan` is `divide_no_nan`: division that yields `0`
  when the denominator is `0`;
* a non-finite float result (`inf`/`nan`) is modelled by `Option`:
  `none` stands for a value that is not an ordinary number.
-/

namespace Meridian

/-- `tf.math.divide_no_nan`: returns `a / b`, and `0` when `b = 0`. -/
def divide_no_nan (a b : ℚ) : ℚ := if b = 0 then 0 else a / b

/-- IEEE-style division of `1` by `r` keeping track of non-finiteness:
`none` models the non-finite float (`inf`/`nan`) produced when `r = 0`. -/
def floatRecip (r : ℚ) : Option ℚ := if r = 0 then none else some (1 / r)

/-!
## Adstock transform

`adstock_hill.AdstockTransformer` is absent from the sources.

Modelled from the spec: §4.1 "given a media-like tensor with a time axis of
length T and a per-channel decay rate α∈[0,1), and a maximum lag L, produce
an output tensor with a time axis of length `n_times_output` (≤ T), where
output time step t is a weighted sum of input steps `t-L..t` (clipped at
the series start) with weights `α^0, α^1, …, α^L` normalized to sum to 1".
The normalization constant is the full-window weight sum `Σ_{i≤L} α^i`;
this is pinned down by the unit test `TestAdstock.test_special_cases`
("media all ones") in `adstock_hill_test.py`, which expects the output
`(1 - α^min(L+1, t+1)) / (1 - α^(L+1))` for an all-ones input.
The transform is generic in the scalar field so that the same definition
serves the rational layer and the real-valued outcome pipeline.
-/

/-- One output cell of the adstock transform: the weighted sum over the lag
window of the input series `x` ending at input time `tp`, clipped at the
series start, divided by the full-window weight sum. -/
def adstockAt {F : Type} [Field F] (α : F) (L : ℕ) (x : ℕ → F) (tp : ℕ) : F :=
  let lags := (List.range (L + 1)).filter (fun i => decide (i ≤ tp))
  (lags.map (fun i => α ^ i * x (tp - i))).sum
    / ((List.range (L + 1)).map (fun i => α ^ i)).sum

/-- Adstock transform of a single-channel time series given as a list of
length `T`; the output has `nOut` steps, output step `t` reading the input
window that ends at input step `t + (T - nOut)`. -/
def adstock {F : Type} [Field F] (α : F) (L nOut : ℕ) (w : List F) : List F :=
  (List.range nOut).map (fun t => adstockAt α L (fun k => w.getD k 0) (t + (w.length - nOut)))

end Meridian

namespace Meridian

/-! Helper lemmas about `adstockAt`. -/

theorem range_succ_filter_le (L tp : ℕ) :
    (List.range (L + 1)).filter (fun i => decide (i ≤ tp))
      = 0 :: ((List.range L).map Nat.succ).filter (fun i => decide (i ≤ tp)) := by
  rw [List.range_succ_eq_map]
  simp [List.filter_cons]

theorem sum_map_pow_zero {F : Type} [Field F] (L : ℕ) :
    (((List.range L).map Nat.succ).map (fun i => (0 : F) ^ i)).sum = 0 := by
  apply List.sum_eq_zero
  intro x hx
  simp only [List.map_map, List.mem_map, List.mem_range, Function.comp] at hx
  obtain ⟨i, _, rfl⟩ := hx
  exact zero_pow (Nat.succ_ne_zero i)

/-- With decay rate `0`, one adstock output cell is the input cell at the
window end. -/
theorem adstockAt_alpha_zero {F : Type} [Field F] (L : ℕ) (x : ℕ → F) (tp : ℕ) :
    adstockAt (0 : F) L x tp = x tp := by
  unfold adstockAt
  rw [range_succ_filter_le]
  rw [List.range_succ_eq_map]
  simp only [List.map_cons, List.sum_cons, pow_zero, one_mul, Nat.sub_zero]
  have hnum : ((((List.range L).map Nat.succ).filter
      (fun i => decide (i ≤ tp))).map (fun i => (0 : F) ^ i * x (tp - i))).sum = 0 := by
    apply List.sum_eq_zero
    intro y hy
    simp only [List.mem_map, List.mem_filter, List.mem_map, List.mem_range] at hy
    obtain ⟨i, ⟨⟨j, _, rfl⟩, _⟩, rfl⟩ := hy
    rw [zero_pow (Nat.succ_ne_zero j), zero_mul]
  have hden : (((List.range L).map Nat.succ).map (fun i => (0 : F) ^ i)).sum = 0 :=
    sum_map_pow_zero L
  rw [hnum, hden]
  simp

/-- With maximum lag `0`, one adstock output cell is the input cell at the
window end. -/
theorem adstockAt_lag_zero {F : Type} [Field F] (α : F) (x : ℕ → F) (tp : ℕ) :
    adstockAt α 0 x tp = x tp := by
  unfold adstockAt
  simp [List.range_succ, List.filter_cons]

/-- On an all-zero input series, every adstock output cell is `0`. -/
theorem adstockAt_zero_input {F : Type} [Field F] (α : F) (L : ℕ) (tp : ℕ) :
    adstockAt α L (fun _ => (0 : F)) tp = 0 := by
  unfold adstockAt
  have : ((((List.range (L + 1)).filter (fun i => decide (i ≤ tp)))).map
      (fun i => α ^ i * (0 : F))).sum = 0 := by
    apply List.sum_eq_zero
    intro y hy
    simp only [List.mem_map] at hy
    obtain ⟨i, _, rfl⟩ := hy
    exact mul_zero _
  simp only [this, zero_div]

theorem map_getD_range_eq_drop {F : Type} (w : List F) (d : F) (nOut : ℕ)
    (h : nOut ≤ w.length) :
    (List.range nOut).map (fun t => w.getD (t + (w.length - nOut)) d)
      = w.drop (w.length - nOut) := by
  apply List.ext_getElem
  · simp [Nat.sub_sub_self h]
  · intro i h1 h2
    simp only [List.getElem_map, List.getElem_range, List.getElem_drop]
    have hlt : i + (w.length - nOut) < w.length := by
      simp at h1; omega
    rw [List.getD_eq_getElem w d hlt]
    congr 1
    omega

theorem getD_replicate_zero {F : Type} [Field F] (T k : ℕ) :
    (List.replicate T (0 : F)).getD k 0 = 0 := by
  rcases Nat.lt_or_ge k T with h | h
  · rw [List.getD_eq_getElem _ _ (by simpa using h)]
    simp
  · rw [List.getD_eq_default _ _ (by simpa using h)]

/-- **C4**: the adstock transform with decay rate `α = 0`, or with maximum
lag `L = 0`, returns the corresponding input time window (the last `nOut`
input steps) unchanged, and an all-zero input yields an all-zero output for
every decay rate `α`. -/
theorem claim_C4_adstock_identity (α : ℚ) (L nOut T : ℕ) (w : List ℚ)
    (h : nOut ≤ w.length) :
    adstock (0 : ℚ) L nOut w = w.drop (w.length - nOut) ∧
    adstock α 0 nOut w = w.drop (w.length - nOut) ∧
    adstock α L nOut (List.replicate T (0 : ℚ)) = List.replicate nOut (0 : ℚ) := by
  refine ⟨?_, ?_, ?_⟩
  · unfold adstock
    rw [← map_getD_range_eq_drop w 0 nOut h]
    apply List.map_congr_left
    intro t _
    exact adstockAt_alpha_zero L _ _
  · unfold adstock
    rw [← map_getD_range_eq_drop w 0 nOut h]
    apply List.map_congr_left
    intro t _
    exact adstockAt_lag_zero α _ _
  · unfold adstock
    have hz : (fun k => (List.replicate T (0 : ℚ)).getD k 0) = fun _ => (0 : ℚ) :=
      funext fun k => getD_replicate_zero T k
    rw [hz]
    rw [List.eq_replicate_iff]
    constructor
    · simp
    · intro b hb
      simp only [List.mem_map, List.mem_range] at hb
      obtain ⟨t, _, rfl⟩ := hb
      exact adstockAt_zero_input α L _

/-- Witness for C4 at a concrete input: `α = 1/2`, `L = 2`, a three-step
series, full output window. -/
theorem claim_C4_witness :
    3 ≤ ([(1 : ℚ), 2, 3]).length ∧
    (adstock (0 : ℚ) 2 3 [(1 : ℚ), 2, 3]
        = ([(1 : ℚ), 2, 3]).drop (([(1 : ℚ), 2, 3]).length - 3) ∧
      adstock (1/2 : ℚ) 0 3 [(1 : ℚ), 2, 3]
        = ([(1 : ℚ), 2, 3]).drop (([(1 : ℚ), 2, 3]).length - 3) ∧
      adstock (1/2 : ℚ) 2 3 (List.replicate 4 (0 : ℚ)) = List.replicate 3 (0 : ℚ)) :=
  ⟨by decide, claim_C4_adstock_identity (1/2) 2 3 4 [(1 : ℚ), 2, 3] (by decide)⟩

/-!
## Hill saturation transform

`adstock_hill.HillTransformer` is absent from the sources.

Modelled from the spec: §4.2 "given a media-like tensor x, half-saturation
point `ec>0`, and slope `s≥0` (per channel), compute `x^s / (x^s + ec^s)`
elementwise (with `s=0` defined as the constant 0.5, and `x=0` mapping
to 0)". The unit tests `TestHill.test_known_outputs` pin the same values
(`media=0 → 0`, `slope=ec=1 → x/(1+x)`, `slope=0 → 0.5`). The exponent is
a real number, so this transform lives over `ℝ` with `Real.rpow`. -/
noncomputable def hill (ec slope x : ℝ) : ℝ :=
  if x = 0 then 0 else x ^ slope / (x ^ slope + ec ^ slope)

/-- Elementwise Hill transform of a single-channel media series
(`HillTransformer(ec, slope).forward`). -/
noncomputable def hillTransform (ec slope : ℝ) (media : List ℝ) : List ℝ :=
  media.map (hill ec slope)

/-- **C5**: the Hill transform computes `x^s / (x^s + ec^s)` elementwise,
with slope `0` giving the constant `1/2` for every `x > 0`, and `x = 0`
mapping to `0`; for `ec > 0`, `s ≥ 0` and non-negative media every output
value lies in `[0, 1)` (hence is finite and non-negative). -/
theorem claim_C5_hill (ec s : ℝ) (media : List ℝ) (hec : 0 < ec) (_hs : 0 ≤ s)
    (hm : ∀ v ∈ media, 0 ≤ v) :
    (∀ x : ℝ, 0 < x → hill ec s x = x ^ s / (x ^ s + ec ^ s)) ∧
    (∀ x : ℝ, 0 < x → hill ec 0 x = 1 / 2) ∧
    hill ec s 0 = 0 ∧
    (∀ y ∈ hillTransform ec s media, 0 ≤ y ∧ y < 1) := by
  have hformula : ∀ x : ℝ, 0 < x → hill ec s x = x ^ s / (x ^ s + ec ^ s) := by
    intro x hx
    rw [hill, if_neg (ne_of_gt hx)]
  refine ⟨hformula, ?_, ?_, ?_⟩
  · intro x hx
    rw [hill, if_neg (ne_of_gt hx), Real.rpow_zero, Real.rpow_zero]
    norm_num
  · rw [hill, if_pos rfl]
  · intro y hy
    rw [hillTransform, List.mem_map] at hy
    obtain ⟨v, hv, rfl⟩ := hy
    rcases eq_or_lt_of_le (hm v hv) with h0 | h0
    · rw [← h0, hill, if_pos rfl]
      exact ⟨le_refl 0, zero_lt_one⟩
    · have ha : 0 < v ^ s := Real.rpow_pos_of_pos h0 s
      have hb : 0 < ec ^ s := Real.rpow_pos_of_pos hec s
      rw [hill, if_neg (ne_of_gt h0)]
      constructor
      · exact div_nonneg (le_of_lt ha) (by linarith)
      · rw [div_lt_one (by linarith)]
        linarith

/-- Witness for C5 at a concrete input: `ec = 1`, `s = 1`, media `[1]`. -/
theorem claim_C5_witness :
    0 < (1 : ℝ) ∧ 0 ≤ (1 : ℝ) ∧ (∀ v ∈ [(1 : ℝ)], 0 ≤ v) ∧
    ((∀ x : ℝ, 0 < x → hill 1 1 x = x ^ (1 : ℝ) / (x ^ (1 : ℝ) + (1 : ℝ) ^ (1 : ℝ))) ∧
      (∀ x : ℝ, 0 < x → hill 1 0 x = 1 / 2) ∧
      hill 1 1 0 = 0 ∧
      (∀ y ∈ hillTransform 1 1 [(1 : ℝ)], 0 ≤ y ∧ y < 1)) :=
  have hm : ∀ v ∈ [(1 : ℝ)], 0 ≤ v := by
    intro v hv
    simp only [List.mem_singleton] at hv
    rw [hv]
    exact zero_le_one
  ⟨one_pos, zero_le_one, hm, claim_C5_hill 1 1 [(1 : ℝ)] one_pos zero_le_one hm⟩

end Meridian

namespace Meridian

/-!
## The counterfactual outcome engine (`analyzer.Analyzer`)

The engine is embedded over `ℝ`. Conventions:
* a `(geo, time)`-indexed tensor cell layout is a function `GT := ℕ → ℕ → ℝ`
  together with explicit `nGeos`/`nTimes` counts held by the model;
* the channel axis is a `List` (so that `tf.concat(..., axis=-1)` is list
  append);
* the `(chain, draw)` axes are flattened into a single draw list: every
  batching/slicing operation of the source acts uniformly on the chain
  axis (`params[k][:, start:stop]`), so a single chain captures the
  draw-axis semantics exactly;
* `new_data` overrides are not modelled (the stored model data snapshot is
  used); they are constant with respect to the draw axis and the batch
  size, so they do not interact with the claims settled here;
* the forward scaling of raw tensors by their transformers
  (`_get_scaled_data_tensors`) is not re-modelled: the model snapshot
  holds the already-scaled tensors (`media_scaled` etc.), exactly what
  `_get_scaled_data_tensors` returns when `new_data is None`.
-/

/-- A `(geo, time)`-indexed real tensor. -/
abbrev GT := ℕ → ℕ → ℝ

/-- A geo-indexed vector of reals. -/
abbrev GeoFun := ℕ → ℝ

/-- A time-indexed vector of reals. -/
abbrev TimeFun := ℕ → ℝ

/-- `InputData.kpi_type`: either `REVENUE` or `NON_REVENUE`. -/
inductive KpiType where
  | revenue : KpiType
  | nonRevenue : KpiType
deriving DecidableEq

/-- Modelled from the spec: the outcome/KPI transformer of
`transformers.KpiTransformer` (the module is absent from the sources) is
affine per geo — "the model's per-channel forward/inverse scaling
transforms (affine)" (§6), "the outcome transformation only involves
centering and scaling" (`incremental_outcome` docstring). The inverse
transform maps a modelled-scale value `z` at geo `g` to
`z * scale g + center g`. -/
structure KpiTransformer where
  center : GeoFun
  scale : GeoFun

/-- The inverse of the affine KPI transform. -/
noncomputable def KpiTransformer.inverse (tr : KpiTransformer) (g : ℕ) (z : ℝ) : ℝ :=
  z * tr.scale g + tr.center g

/-- `analyzer.DataTensors`: the optional data tensor bundle, already scaled
by the corresponding transformers where applicable. Channel-indexed
tensors are lists of `(geo, time)` tensors. -/
structure DataTensors where
  media : Option (List GT) := none
  reach : Option (List GT) := none
  frequency : Option (List GT) := none
  organic_media : Option (List GT) := none
  organic_reach : Option (List GT) := none
  organic_frequency : Option (List GT) := none
  non_media_treatments : Option (List GT) := none
  controls : List GT := []
  revenue_per_kpi : Option GT := none

/-- `analyzer.DistributionTensors` restricted to a single draw: the
per-draw slice of every parameter-draw tensor. -/
structure DistributionTensors where
  alpha_m : List ℝ := []
  ec_m : List ℝ := []
  slope_m : List ℝ := []
  beta_gm : List GeoFun := []
  alpha_rf : List ℝ := []
  ec_rf : List ℝ := []
  slope_rf : List ℝ := []
  beta_grf : List GeoFun := []
  alpha_om : List ℝ := []
  ec_om : List ℝ := []
  slope_om : List ℝ := []
  beta_gom : List GeoFun := []
  alpha_orf : List ℝ := []
  ec_orf : List ℝ := []
  slope_orf : List ℝ := []
  beta_gorf : List GeoFun := []
  mu_t : TimeFun := fun _ => 0
  tau_g : GeoFun := fun _ => 0
  gamma_gc : List GeoFun := []
  gamma_gn : List GeoFun := []

/-- The fitted-model snapshot consumed by the analyzer: dimension
constants, the KPI type and transform, the stored scaled data, and the
prior/posterior draw collections (`none` models an inference-data group
that does not exist yet, i.e. `sample_prior()`/`sample_posterior()` not
called). -/
structure MeridianModel where
  nGeos : ℕ
  nTimes : ℕ
  nMediaTimes : ℕ
  maxLag : ℕ
  kpiType : KpiType
  revenuePerKpi : Option GT
  kpiTransformer : KpiTransformer
  scaledData : DataTensors
  priorDraws : Option (List DistributionTensors)
  posteriorDraws : Option (List DistributionTensors)

/-- Modelled from the spec: `model.Meridian.adstock_hill_media` (the module
is absent from the sources) applies "Adstock ... then Hill, in that fixed
order" (§4.3) per media channel; output time step `t` reads the input
window ending at input step `t + (nMediaTimes - nTimesOutput)`. -/
noncomputable def adstockHillMedia (m : MeridianModel) (media : List GT)
    (alpha ec slope : List ℝ) (nTimesOutput : ℕ) : List GT :=
  (List.range media.length).map fun c => fun g t =>
    hill (ec.getD c 1) (slope.getD c 1)
      (adstockAt (alpha.getD c 0) m.maxLag
        (fun tt => (media.getD c (fun _ _ => 0)) g tt)
        (t + (m.nMediaTimes - nTimesOutput)))

/-- Modelled from the spec: `model.Meridian.adstock_hill_rf` (the module is
absent from the sources). For reach/frequency channels the Hill saturation
acts on frequency (scaling a channel "multiplies reach only, holding
frequency fixed", §4.5), the saturated frequency is weighted by reach, and
the adstock lag-decay is applied to the product (the reach family is among
the adstock-carrying families, §4.3). -/
noncomputable def adstockHillRf (m : MeridianModel) (reach frequency : List GT)
    (alpha ec slope : List ℝ) (nTimesOutput : ℕ) : List GT :=
  (List.range reach.length).map fun c => fun g t =>
    adstockAt (alpha.getD c 0) m.maxLag
      (fun tt => (reach.getD c (fun _ _ => 0)) g tt *
        hill (ec.getD c 1) (slope.getD c 1) ((frequency.getD c (fun _ _ => 0)) g tt))
      (t + (m.nMediaTimes - nTimesOutput))

/-- `Analyzer._get_transformed_media_and_beta`: apply adstock+Hill to every
present channel family and concatenate the transformed media and the
matching coefficient draws along the channel axis, in the fixed order
media, RF, organic media, organic RF. -/
noncomputable def getTransformedMediaAndBeta (m : MeridianModel)
    (data : DataTensors) (dist : DistributionTensors) (nTimesOutput : ℕ) :
    List GT × List GeoFun :=
  let mediaPart : List GT := match data.media with
    | some med => adstockHillMedia m med dist.alpha_m dist.ec_m dist.slope_m nTimesOutput
    | none => []
  let mediaBeta : List GeoFun := if data.media.isSome then dist.beta_gm else []
  let rfPart : List GT := match data.reach, data.frequency with
    | some re, some fr => adstockHillRf m re fr dist.alpha_rf dist.ec_rf dist.slope_rf nTimesOutput
    | _, _ => []
  let rfBeta : List GeoFun := if data.reach.isSome then dist.beta_grf else []
  let omPart : List GT := match data.organic_media with
    | some om => adstockHillMedia m om dist.alpha_om dist.ec_om dist.slope_om nTimesOutput
    | none => []
  let omBeta : List GeoFun := if data.organic_media.isSome then dist.beta_gom else []
  let orfPart : List GT := match data.organic_reach, data.organic_frequency with
    | some ore, some orf => adstockHillRf m ore orf dist.alpha_orf dist.ec_orf dist.slope_orf nTimesOutput
    | _, _ => []
  let orfBeta : List GeoFun := if data.organic_reach.isSome then dist.beta_gorf else []
  (mediaPart ++ rfPart ++ omPart ++ orfPart, mediaBeta ++ rfBeta ++ omBeta ++ orfBeta)

/-- The einsum contraction `"...gtm,...gm->...gt"`: sum over the channel
axis of per-channel `(geo, time)` values weighted by per-channel geo
coefficients. -/
noncomputable def einsumChannels (xs : List GT) (betas : List GeoFun) : GT :=
  fun g t => ((xs.zip betas).map fun p => p.1 g t * p.2 g).sum

/-- `Analyzer._get_kpi_means` restricted to one draw: the modelled-scale
outcome `tau_g + mu_t + Σ_channel media·beta + Σ_control controls·gamma
[+ Σ_nonmedia nmt·gamma]` at a `(geo, time)` cell. -/
noncomputable def getKpiMeans (m : MeridianModel) (data : DataTensors)
    (dist : DistributionTensors) : GT :=
  fun g t =>
    let tau_gt := dist.tau_g g + dist.mu_t t
    let combined := getTransformedMediaAndBeta m data dist m.nTimes
    let result := tau_gt + einsumChannels combined.1 combined.2 g t
      + einsumChannels data.controls dist.gamma_gc g t
    match data.non_media_treatments with
    | some nmt => result + einsumChannels nmt dist.gamma_gn g t
    | none => result

/-- `np.arange(n_draws, step=batch_size)`: the list of batch starting
indices `0, B, 2B, …` below `nDraws`. -/
def batchStartingIndices (nDraws batchSize : ℕ) : List ℕ :=
  (List.range ((nDraws + batchSize - 1) / batchSize)).map (· * batchSize)

/-- The batched-draw loop shared by `expected_outcome` and
`incremental_outcome`: for each starting index `s` take the draw slice
`[s, min(nDraws, s + batchSize))`, apply the per-draw computation, and
concatenate the per-batch outputs along the draw axis in batch order. -/
def batchedMap {α β : Type} (f : α → β) (batchSize : ℕ) (draws : List α) : List β :=
  ((batchStartingIndices draws.length batchSize).map (fun s =>
    ((draws.drop s).take (min draws.length (s + batchSize) - s)).map f)).flatten

end Meridian

namespace Meridian

/-! Batch-invariance lemmas: the batched-draw loop computes exactly the
unbatched per-draw map, for every positive batch size. -/

theorem take_min_sub {α : Type} (l : List α) (s B : ℕ) :
    (l.drop s).take (min l.length (s + B) - s) = (l.drop s).take B := by
  rw [List.take_eq_take]
  simp only [List.length_drop]
  omega

theorem flatten_chunks {α β : Type} (f : α → β) (B k : ℕ) (l : List α) :
    (((List.range k).map (· * B)).map (fun s => ((l.drop s).take B).map f)).flatten
      = (l.take (k * B)).map f := by
  induction k with
  | zero => simp
  | succ k ih =>
    rw [List.range_succ, List.map_append, List.map_append, List.flatten_append, ih]
    have hsplit : l.take ((k + 1) * B) = l.take (k * B) ++ (l.drop (k * B)).take B := by
      rw [show (k + 1) * B = k * B + B by ring]
      exact (List.take_add l (k * B) B)
    rw [hsplit, List.map_append]
    simp

theorem batchedMap_eq_map {α β : Type} (f : α → β) (B : ℕ) (hB : 0 < B)
    (draws : List α) : batchedMap f B draws = draws.map f := by
  unfold batchedMap batchStartingIndices
  have hslice : ∀ s : ℕ,
      ((draws.drop s).take (min draws.length (s + B) - s)).map f
        = ((draws.drop s).take B).map f := by
    intro s
    rw [take_min_sub]
  calc ((((List.range ((draws.length + B - 1) / B)).map (· * B))).map
          (fun s => ((draws.drop s).take (min draws.length (s + B) - s)).map f)).flatten
      = ((((List.range ((draws.length + B - 1) / B)).map (· * B))).map
          (fun s => ((draws.drop s).take B).map f)).flatten := by
        congr 1
        apply List.map_congr_left
        intro s _
        exact hslice s
    _ = (draws.take (((draws.length + B - 1) / B) * B)).map f :=
        flatten_chunks f B _ draws
    _ = draws.map f := by
        have hge : draws.length ≤ ((draws.length + B - 1) / B) * B := by
          have hdm := Nat.div_add_mod (draws.length + B - 1) B
          have hmlt : (draws.length + B - 1) % B < B := Nat.mod_lt _ hB
          have hcomm : ((draws.length + B - 1) / B) * B
              = B * ((draws.length + B - 1) / B) := Nat.mul_comm _ _
          omega
        rw [List.take_of_length_le hge]

end Meridian

namespace Meridian

/-!
## Validation checks and the top-level outcome methods

Errors are modelled by `Except String`; warnings of the source are
non-fatal and are not modelled. Geo/time selections are modelled as
boolean masks (the source converts name lists to such masks before use).
-/

/-- `Analyzer._check_revenue_data_exists`: in the `NON_REVENUE` case,
revenue analysis (`use_kpi=False`) without `revenue_per_kpi` is an error;
in the `REVENUE` case the source asserts that `revenue_per_kpi` exists
(the `InputData` constructor fills it with ones), which is modelled as an
error when violated. -/
def checkRevenueDataExists (m : MeridianModel) (useKpi : Bool) : Except String Unit :=
  if m.kpiType = KpiType.nonRevenue ∧ useKpi = false ∧ m.revenuePerKpi.isNone = true then
    Except.error "Revenue analysis is not available when revenue_per_kpi is unknown. Set use_kpi=True to perform KPI analysis instead."
  else if m.kpiType = KpiType.revenue ∧ m.revenuePerKpi.isNone = true then
    Except.error "AssertionError: revenue_per_kpi is set when kpi_type=REVENUE"
  else
    Except.ok ()

/-- `Analyzer._check_kpi_transformation`: requesting the standardized
(non-inverse-transformed) scale in revenue terms is rejected. -/
def checkKpiTransformation (inverseTransformOutcome useKpi : Bool) : Except String Unit :=
  if inverseTransformOutcome = false ∧ useKpi = false then
    Except.error "use_kpi=False is only supported when inverse_transform_outcome=True."
  else
    Except.ok ()

/-- The geo or time indices selected by an optional boolean mask
(`tf.boolean_mask`); `none` selects every index. -/
def maskIndices (mask : Option (List Bool)) (n : ℕ) : List ℕ :=
  match mask with
  | none => List.range n
  | some bs => (List.range n).filter (fun i => bs.getD i false)

/-- `Analyzer.filter_and_aggregate_geos_and_times` on a `(geo, time)`
tensor: filter both axes by the optional masks, then optionally sum an
axis. A summed axis is encoded as a constant axis holding the sum; a
kept axis is re-indexed over the selected indices, mirroring
`tf.boolean_mask` followed by the reducing einsum. -/
noncomputable def filterAndAggregateGT (nGeos nTimes : ℕ)
    (selectedGeos selectedTimes : Option (List Bool))
    (aggregateGeos aggregateTimes : Bool) (x : GT) : GT :=
  let gs := maskIndices selectedGeos nGeos
  let ts := maskIndices selectedTimes nTimes
  fun g t =>
    let gl := if aggregateGeos then gs else [gs.getD g 0]
    let tl := if aggregateTimes then ts else [ts.getD t 0]
    (gl.map (fun gg => (tl.map (fun tt => x gg tt)).sum)).sum

/-- `Analyzer.expected_outcome`: validation checks, the batched-draw loop
over `_get_kpi_means`, optional inverse transformation (and KPI→revenue
conversion), then geo/time filtering and aggregation. The result is the
per-draw list of outcome tensors. -/
noncomputable def expectedOutcome (m : MeridianModel) (usePosterior : Bool)
    (selectedGeos selectedTimes : Option (List Bool))
    (aggregateGeos aggregateTimes inverseTransformOutcome useKpi : Bool)
    (batchSize : ℕ) : Except String (List GT) := do
  checkRevenueDataExists m useKpi
  checkKpiTransformation inverseTransformOutcome useKpi
  let params ← match (if usePosterior then m.posteriorDraws else m.priorDraws) with
    | some d => pure d
    | none => Except.error "sample_posterior() or sample_prior() must be called prior to calling expected_outcome()."
  let outcomeMeans := batchedMap (fun d => getKpiMeans m m.scaledData d) batchSize params
  let rpk := m.revenuePerKpi.getD (fun _ _ => 0)
  let outcomeMeans := if inverseTransformOutcome then
      outcomeMeans.map (fun o => fun g t =>
        let y := m.kpiTransformer.inverse g (o g t)
        if useKpi then y else y * rpk g t)
    else outcomeMeans
  pure (outcomeMeans.map
    (filterAndAggregateGT m.nGeos m.nTimes selectedGeos selectedTimes
      aggregateGeos aggregateTimes))

/-- A non-media-treatment channel's baseline request: the channel's global
minimum, its global maximum, or a fixed value. -/
inductive BaselineValue where
  | minValue : BaselineValue
  | maxValue : BaselineValue
  | fixed : ℝ → BaselineValue

/-- `tf.reduce_min` over the geo and time axes of a `(geo, time)` tensor. -/
noncomputable def tensorMin (nGeos nTimes : ℕ) (x : GT) : ℝ :=
  ((((List.range nGeos).map (fun g => (List.range nTimes).map (fun t => x g t))).flatten).min?).getD 0

/-- `tf.reduce_max` over the geo and time axes of a `(geo, time)` tensor. -/
noncomputable def tensorMax (nGeos nTimes : ℕ) (x : GT) : ℝ :=
  ((((List.range nGeos).map (fun g => (List.range nTimes).map (fun t => x g t))).flatten).max?).getD 0

/-- `analyzer._compute_non_media_baseline`: per channel, the requested
baseline value (default: the channel minimum) spread over the grid and
masked by the selected time periods. -/
noncomputable def computeNonMediaBaseline (nGeos nTimes : ℕ) (nmt : List GT)
    (baselineValues : Option (List BaselineValue)) (selTimes : List Bool) : List GT :=
  let filled := baselineValues.getD (List.replicate nmt.length BaselineValue.minValue)
  (List.range nmt.length).map fun c =>
    let ch := nmt.getD c (fun _ _ => 0)
    let v := match filled.getD c BaselineValue.minValue with
      | BaselineValue.minValue => tensorMin nGeos nTimes ch
      | BaselineValue.maxValue => tensorMax nGeos nTimes ch
      | BaselineValue.fixed cv => cv
    fun _g t => v * (if selTimes.getD t false then 1 else 0)

/-- `Analyzer._get_incremental_kpi` restricted to one draw: per-channel
modelled-scale contributions `media·beta` (einsum `"...gtm,...gm->...gtm"`)
with, when non-media treatments are present, the baseline-subtracted
non-media contributions appended along the channel axis. -/
noncomputable def getIncrementalKpi (m : MeridianModel) (data : DataTensors)
    (dist : DistributionTensors)
    (baselineValues : Option (List BaselineValue)) : List GT :=
  let combined := getTransformedMediaAndBeta m data dist m.nTimes
  let mediaKpi : List GT :=
    (combined.1.zip combined.2).map (fun p => fun g t => p.1 g t * p.2 g)
  match data.non_media_treatments with
  | some nmt =>
    let base := computeNonMediaBaseline m.nGeos m.nTimes nmt baselineValues
      (List.replicate m.nTimes true)
    let nmKpi : List GT := (List.range nmt.length).map fun c => fun g t =>
      ((nmt.getD c (fun _ _ => 0)) g t - (base.getD c (fun _ _ => 0)) g t)
        * (dist.gamma_gn.getD c (fun _ => 0)) g
    mediaKpi ++ nmKpi
  | none => mediaKpi

/-- `Analyzer._inverse_outcome`: apply the inverse KPI transform to each
per-channel modelled-scale tensor, subtract the inverse transform of zero,
and multiply by `revenue_per_kpi` unless KPI units are requested. -/
noncomputable def inverseOutcome (m : MeridianModel) (useKpi : Bool)
    (revenuePerKpi : Option GT) (x : List GT) : List GT :=
  let rpk := (revenuePerKpi.or m.revenuePerKpi).getD (fun _ _ => 0)
  x.map fun ch => fun g t =>
    let kpi := m.kpiTransformer.inverse g (ch g t) - m.kpiTransformer.inverse g 0
    if useKpi then kpi else rpk g t * kpi

/-- `Analyzer._incremental_outcome_impl` restricted to one draw: the
modelled-scale incremental KPI, optionally inverse-transformed, then
filtered/aggregated per channel. -/
noncomputable def incrementalOutcomeImpl (m : MeridianModel) (data : DataTensors)
    (dist : DistributionTensors) (baselineValues : Option (List BaselineValue))
    (inverseTransformOutcome useKpi : Bool)
    (selectedGeos selectedTimes : Option (List Bool))
    (aggregateGeos aggregateTimes : Bool) : List GT :=
  let transformed := getIncrementalKpi m data dist baselineValues
  let incr := if inverseTransformOutcome then
      inverseOutcome m useKpi data.revenue_per_kpi transformed
    else transformed
  incr.map (filterAndAggregateGT m.nGeos m.nTimes selectedGeos selectedTimes
    aggregateGeos aggregateTimes)

/-- The counterfactual scaling of `incremental_outcome`: multiply each
channel's value at media time `t` by `1 + (sf - 1) · mask(t)`. -/
noncomputable def scaleByCounterfactual (sf : ℚ) (mst : List Bool) (xs : List GT) : List GT :=
  xs.map fun ch => fun g t =>
    ch g t * (1 + ((sf : ℝ) - 1) * (if mst.getD t false then 1 else 0))

/-- Pointwise difference of two per-channel tensor lists. -/
noncomputable def subChannelLists (a b : List GT) : List GT :=
  List.zipWith (fun x y => fun g t => x g t - y g t) a b

/-- `Analyzer.incremental_outcome`: validation checks (revenue data, KPI
transformation, fitted draws, scaling factors), construction of the two
counterfactual data scenarios, and the batched-draw loop computing
`impl(scenario1) − impl(scenario0)` per batch (the subtraction is skipped
when scenario 0 is identically zero media), concatenated along the draw
axis. The result is the per-draw list of per-channel tensors. -/
noncomputable def incrementalOutcome (m : MeridianModel) (usePosterior : Bool)
    (baselineValues : Option (List BaselineValue))
    (scalingFactor0 scalingFactor1 : ℚ)
    (selectedGeos selectedTimes mediaSelectedTimes : Option (List Bool))
    (aggregateGeos aggregateTimes inverseTransformOutcome useKpi : Bool)
    (includeNonPaidChannels : Bool)
    (batchSize : ℕ) : Except String (List (List GT)) := do
  checkRevenueDataExists m useKpi
  checkKpiTransformation inverseTransformOutcome useKpi
  let params ← match (if usePosterior then m.posteriorDraws else m.priorDraws) with
    | some d => pure d
    | none => Except.error "sample_posterior() or sample_prior() must be called prior to calling this method."
  if scalingFactor1 < 0 then
    Except.error "scaling_factor1 must be non-negative."
  else if scalingFactor0 < 0 then
    Except.error "scaling_factor0 must be non-negative."
  else if scalingFactor1 ≤ scalingFactor0 then
    Except.error "scaling_factor1 must be greater than scaling_factor0."
  else do
    let dataAll := m.scaledData
    let data := if includeNonPaidChannels then dataAll
      else { dataAll with
        organic_media := none
        organic_reach := none
        organic_frequency := none
        non_media_treatments := none }
    if data.media.isNone = true ∧ data.reach.isNone = true then
      Except.error "Both media_scaled and reach_scaled cannot be None."
    else do
      let mst := mediaSelectedTimes.getD (List.replicate m.nMediaTimes true)
      let nmst := mst.drop (mst.length - m.nTimes)
      let data0 : DataTensors := { data with
        media := data.media.map (scaleByCounterfactual scalingFactor0 mst)
        reach := data.reach.map (scaleByCounterfactual scalingFactor0 mst)
        organic_media := data.organic_media.map (scaleByCounterfactual scalingFactor0 mst)
        organic_reach := data.organic_reach.map (scaleByCounterfactual scalingFactor0 mst)
        non_media_treatments := data.non_media_treatments.map
          (fun nmt => computeNonMediaBaseline m.nGeos m.nTimes nmt baselineValues nmst) }
      let data1 : DataTensors := { data with
        media := data.media.map (scaleByCounterfactual scalingFactor1 mst)
        reach := data.reach.map (scaleByCounterfactual scalingFactor1 mst)
        organic_media := data.organic_media.map (scaleByCounterfactual scalingFactor1 mst)
        organic_reach := data.organic_reach.map (scaleByCounterfactual scalingFactor1 mst) }
      let impl := fun (dt : DataTensors) (d : DistributionTensors) =>
        incrementalOutcomeImpl m dt d baselineValues inverseTransformOutcome useKpi
          selectedGeos selectedTimes aggregateGeos aggregateTimes
      let perDraw := fun (d : DistributionTensors) =>
        if scalingFactor0 ≠ 0 ∨ ¬ (mst.all id = true) then
          subChannelLists (impl data1 d) (impl data0 d)
        else impl data1 d
      pure (batchedMap perDraw batchSize params)

end Meridian

namespace Meridian

/-- **C1**: for every fitted model and fixed arguments, and any two
positive batch sizes, `expected_outcome` and `incremental_outcome` return
exactly identical results: the batch size only partitions the draw axis
into consecutive chunks whose per-chunk outputs are concatenated in
original order. -/
theorem claim_C1_batch_invariance (m : MeridianModel) (usePosterior : Bool)
    (baselineValues : Option (List BaselineValue)) (sf0 sf1 : ℚ)
    (selectedGeos selectedTimes mediaSelectedTimes : Option (List Bool))
    (aggregateGeos aggregateTimes inverseTransformOutcome useKpi : Bool)
    (includeNonPaidChannels : Bool) (B1 B2 : ℕ)
    (_hne : B1 ≠ B2) (h1 : 0 < B1) (h2 : 0 < B2) :
    expectedOutcome m usePosterior selectedGeos selectedTimes aggregateGeos
        aggregateTimes inverseTransformOutcome useKpi B1
      = expectedOutcome m usePosterior selectedGeos selectedTimes aggregateGeos
        aggregateTimes inverseTransformOutcome useKpi B2 ∧
    incrementalOutcome m usePosterior baselineValues sf0 sf1 selectedGeos
        selectedTimes mediaSelectedTimes aggregateGeos aggregateTimes
        inverseTransformOutcome useKpi includeNonPaidChannels B1
      = incrementalOutcome m usePosterior baselineValues sf0 sf1 selectedGeos
        selectedTimes mediaSelectedTimes aggregateGeos aggregateTimes
        inverseTransformOutcome useKpi includeNonPaidChannels B2 := by
  constructor
  · unfold expectedOutcome
    simp only [batchedMap_eq_map _ B1 h1, batchedMap_eq_map _ B2 h2]
  · unfold incrementalOutcome
    simp only [batchedMap_eq_map _ B1 h1, batchedMap_eq_map _ B2 h2]

/-- A small concrete fitted-model snapshot used by the witnesses: one geo,
two time periods, one media channel, three posterior draws. -/
noncomputable def witnessModel : MeridianModel where
  nGeos := 1
  nTimes := 2
  nMediaTimes := 2
  maxLag := 1
  kpiType := KpiType.nonRevenue
  revenuePerKpi := some (fun _ _ => 1)
  kpiTransformer := { center := fun _ => 0, scale := fun _ => 1 }
  scaledData := { media := some [fun _ _ => 1], controls := [],
                  revenue_per_kpi := some (fun _ _ => 1) }
  priorDraws := some [{}, {}]
  posteriorDraws := some [{}, {}, {}]

/-- Witness for C1: the three posterior draws of the concrete model,
batch sizes 1 and 2. -/
theorem claim_C1_witness :
    (1 : ℕ) ≠ 2 ∧ 0 < (1 : ℕ) ∧ 0 < (2 : ℕ) ∧
    (expectedOutcome witnessModel true none none true true true true 1
        = expectedOutcome witnessModel true none none true true true true 2 ∧
      incrementalOutcome witnessModel true none 0 1 none none none true true
          true true true 1
        = incrementalOutcome witnessModel true none 0 1 none none none true true
          true true true 2) :=
  ⟨by decide, by decide, by decide,
    claim_C1_batch_invariance witnessModel true none 0 1 none none none
      true true true true true 1 2 (by decide) (by decide) (by decide)⟩

/-- **C2**: the incremental outcome may equivalently be computed as the
scenario difference on the modelled (additive) scale inverse-transformed
once (subtracting the inverse transform of zero), or as the difference of
the two individually inverse-transformed scenario outcomes — the outcome
transform is affine, so the two agree, per channel and per cell. -/
theorem claim_C2_affine_inverse (m : MeridianModel) (useKpi : Bool)
    (rpkOpt : Option GT) (a b : List GT) :
    inverseOutcome m useKpi rpkOpt (subChannelLists a b)
      = subChannelLists (inverseOutcome m useKpi rpkOpt a)
          (inverseOutcome m useKpi rpkOpt b) ∧
    (∀ (g : ℕ) (z1 z2 : ℝ),
      m.kpiTransformer.inverse g (z1 - z2) - m.kpiTransformer.inverse g 0
        = m.kpiTransformer.inverse g z1 - m.kpiTransformer.inverse g z2) := by
  constructor
  · unfold inverseOutcome subChannelLists
    rw [List.map_zipWith, List.zipWith_map]
    congr 1
    funext x y
    funext g t
    unfold KpiTransformer.inverse
    cases useKpi <;> simp <;> ring
  · intro g z1 z2
    unfold KpiTransformer.inverse
    ring

end Meridian

namespace Meridian

theorem checkRevenueDataExists_error_of_isNone (m : MeridianModel)
    (h : m.revenuePerKpi.isNone = true) :
    ∃ e, checkRevenueDataExists m false = Except.error e := by
  unfold checkRevenueDataExists
  cases hk : m.kpiType <;> simp [hk, h]

theorem checkKpiTransformation_false_false :
    ∃ e, checkKpiTransformation false false = Except.error e := by
  unfold checkKpiTransformation
  simp

/-- **C6**: `expected_outcome` and `incremental_outcome` fail with an
error, before any outcome computation, whenever revenue analysis
(`use_kpi=False`) is requested while `revenue_per_kpi` is undefined, and
whenever the standardized scale is requested in revenue terms
(`inverse_transform_outcome=False` with `use_kpi=False`). -/
theorem claim_C6_configuration_errors (m : MeridianModel) (usePosterior : Bool)
    (baselineValues : Option (List BaselineValue)) (sf0 sf1 : ℚ)
    (selectedGeos selectedTimes mediaSelectedTimes : Option (List Bool))
    (aggregateGeos aggregateTimes inverseTransformOutcome : Bool)
    (includeNonPaidChannels : Bool) (batchSize : ℕ)
    (hcond : m.revenuePerKpi.isNone = true ∨ inverseTransformOutcome = false) :
    (∃ e, expectedOutcome m usePosterior selectedGeos selectedTimes
        aggregateGeos aggregateTimes inverseTransformOutcome false batchSize
      = Except.error e) ∧
    (∃ e, incrementalOutcome m usePosterior baselineValues sf0 sf1
        selectedGeos selectedTimes mediaSelectedTimes aggregateGeos
        aggregateTimes inverseTransformOutcome false includeNonPaidChannels
        batchSize
      = Except.error e) := by
  cases hc : checkRevenueDataExists m false with
  | error e =>
    constructor
    · exact ⟨e, by unfold expectedOutcome; rw [hc]; rfl⟩
    · exact ⟨e, by unfold incrementalOutcome; rw [hc]; rfl⟩
  | ok u =>
    have hito : inverseTransformOutcome = false := by
      rcases hcond with hnone | hito
      · obtain ⟨e, he⟩ := checkRevenueDataExists_error_of_isNone m hnone
        rw [he] at hc
        exact absurd hc (by simp)
      · exact hito
    obtain ⟨e2, he2⟩ := checkKpiTransformation_false_false
    subst hito
    constructor
    · exact ⟨e2, by unfold expectedOutcome; rw [hc, he2]; rfl⟩
    · exact ⟨e2, by unfold incrementalOutcome; rw [hc, he2]; rfl⟩

/-- Witness for C6: the concrete model with the standardized scale
requested in revenue terms (`inverse_transform_outcome=False`,
`use_kpi=False`). -/
theorem claim_C6_witness :
    (witnessModel.revenuePerKpi.isNone = true ∨ false = false) ∧
    ((∃ e, expectedOutcome witnessModel true none none true true false false 1
        = Except.error e) ∧
      (∃ e, incrementalOutcome witnessModel true none 0 1 none none none true
          true false false true 1
        = Except.error e)) :=
  ⟨Or.inr rfl,
    claim_C6_configuration_errors witnessModel true none 0 1 none none none
      true true false true 1 (Or.inr rfl)⟩

end Meridian

namespace Meridian

/-!
## Derived metrics (`roi`, `marginal_roi`, `cpik`)

The spec treats the derived metrics as "pure functions of Counterfactual
Engine outputs"; accordingly they are embedded over `ℚ` as per-channel
post-processing of the aggregated incremental-outcome and spend vectors
(one entry per paid channel). `use_kpi` selects between the
KPI-denominated and revenue-denominated incremental outcome, exactly as
the flag is forwarded to `incremental_outcome` by the source. -/

/-- `Analyzer.roi`: `tf.math.divide_no_nan(incremental_outcome, spend)`
per channel. -/
def roiMetric (useKpi : Bool) (incrRevenue incrKpi spend : List ℚ) : List ℚ :=
  List.zipWith divide_no_nan (if useKpi then incrKpi else incrRevenue) spend

/-- `Analyzer.cpik`: `tf.math.divide_no_nan(1.0, self.roi(use_kpi=True))`
per channel. -/
def cpikMetric (incrRevenue incrKpi spend : List ℚ) : List ℚ :=
  (roiMetric true incrRevenue incrKpi spend).map (fun r => divide_no_nan 1 r)

/-- `Analyzer.marginal_roi`:
`tf.math.divide_no_nan(incremental_outcome_with_multiplier −
incremental_outcome, total_spend × incremental_increase)` per channel. -/
def marginalRoiMetric (incrWithMultiplier incr spend : List ℚ)
    (incrementalIncrease : ℚ) : List ℚ :=
  List.zipWith divide_no_nan
    (List.zipWith (fun a b => a - b) incrWithMultiplier incr)
    (spend.map (fun s => s * incrementalIncrease))

theorem getD_zipWith (f : ℚ → ℚ → ℚ) (a b : List ℚ) (c : ℕ)
    (h1 : c < a.length) (h2 : c < b.length) :
    (List.zipWith f a b).getD c 0 = f (a.getD c 0) (b.getD c 0) := by
  have hz : c < (List.zipWith f a b).length := by
    rw [List.length_zipWith]
    omega
  rw [List.getD_eq_getElem _ _ hz, List.getD_eq_getElem _ _ h1,
    List.getD_eq_getElem _ _ h2, List.getElem_zipWith]

theorem getD_map (f : ℚ → ℚ) (a : List ℚ) (c : ℕ) (h : c < a.length) :
    (a.map f).getD c 0 = f (a.getD c 0) := by
  have hm : c < (a.map f).length := by
    rw [List.length_map]
    omega
  rw [List.getD_eq_getElem _ _ hm, List.getD_eq_getElem _ _ h, List.getElem_map]

theorem divide_no_nan_zero_num (b : ℚ) : divide_no_nan 0 b = 0 := by
  unfold divide_no_nan
  by_cases hb : b = 0 <;> simp [hb]

theorem divide_no_nan_zero_den (a : ℚ) : divide_no_nan a 0 = 0 := by
  unfold divide_no_nan
  simp

/-- Counterexample to **C3** as stated: with a channel whose KPI-denominated
incremental outcome is exactly `0` (and spend `5`), the code's CPIK is the
ordinary number `0`, not the non-finite value that the claimed
divide-by-zero→NaN convention would produce for `1/roi`. -/
theorem claim_C3_counterexample :
    ¬ ((cpikMetric [0] [0] [(5 : ℚ)]).map some
        = (roiMetric true [0] [0] [(5 : ℚ)]).map floatRecip) := by
  norm_num [cpikMetric, roiMetric, divide_no_nan, floatRecip]
  exact Option.some_ne_none 0

/-- **C3 (amended)**: for every channel, `cpik` equals `1 / roi` (with
`use_kpi=True` on both sides) whenever that ROI is nonzero; when the
KPI-denominated incremental outcome is exactly `0`, the ROI is `0` and
CPIK is exactly `0` (not NaN), by the divide-no-nan convention. -/
theorem claim_C3_cpik_reciprocal (incrRevenue incrKpi spend : List ℚ) (c : ℕ)
    (h1 : c < incrKpi.length) (h2 : c < spend.length) :
    ((roiMetric true incrRevenue incrKpi spend).getD c 0 ≠ 0 →
      (cpikMetric incrRevenue incrKpi spend).getD c 0
        = 1 / (roiMetric true incrRevenue incrKpi spend).getD c 0) ∧
    (incrKpi.getD c 0 = 0 →
      (roiMetric true incrRevenue incrKpi spend).getD c 0 = 0 ∧
      (cpikMetric incrRevenue incrKpi spend).getD c 0 = 0) := by
  have hroi : (roiMetric true incrRevenue incrKpi spend).getD c 0
      = divide_no_nan (incrKpi.getD c 0) (spend.getD c 0) := by
    unfold roiMetric
    rw [if_pos rfl, getD_zipWith _ _ _ _ h1 h2]
  have hlen : c < (roiMetric true incrRevenue incrKpi spend).length := by
    unfold roiMetric
    rw [if_pos rfl, List.length_zipWith]
    omega
  have hcpik : (cpikMetric incrRevenue incrKpi spend).getD c 0
      = divide_no_nan 1 ((roiMetric true incrRevenue incrKpi spend).getD c 0) := by
    unfold cpikMetric
    rw [getD_map _ _ _ hlen]
  constructor
  · intro hne
    rw [hcpik]
    unfold divide_no_nan
    rw [if_neg hne]
  · intro hzero
    have hr0 : (roiMetric true incrRevenue incrKpi spend).getD c 0 = 0 := by
      rw [hroi, hzero, divide_no_nan_zero_num]
    refine ⟨hr0, ?_⟩
    rw [hcpik, hr0, divide_no_nan_zero_den]

/-- Witness for the amended C3 at a concrete input: one channel with
KPI-incremental outcome `4` and spend `2` (ROI `2`, CPIK `1/2`). -/
theorem claim_C3_witness :
    (0 : ℕ) < ([(4 : ℚ)]).length ∧ (0 : ℕ) < ([(2 : ℚ)]).length ∧
    (((roiMetric true [9] [(4 : ℚ)] [2]).getD 0 0 ≠ 0 →
      (cpikMetric [9] [(4 : ℚ)] [2]).getD 0 0
        = 1 / (roiMetric true [9] [(4 : ℚ)] [2]).getD 0 0) ∧
    (([(4 : ℚ)]).getD 0 0 = 0 →
      (roiMetric true [9] [(4 : ℚ)] [2]).getD 0 0 = 0 ∧
      (cpikMetric [9] [(4 : ℚ)] [2]).getD 0 0 = 0)) :=
  ⟨by decide, by decide, claim_C3_cpik_reciprocal [9] [(4 : ℚ)] [2] 0 (by decide) (by decide)⟩

/-- **C10**: ratio metrics with an exactly-zero denominator return exactly
`0` (not NaN or infinity): `roi` and `marginal_roi` when the channel's
total spend (hence the spend increment) is `0`, and `cpik` when the
KPI-denominated ROI is `0`, because each final division is
`tf.math.divide_no_nan`. -/
theorem claim_C10_zero_denominator (useKpi : Bool)
    (incrRevenue incrKpi incrWithMultiplier spend : List ℚ)
    (incrementalIncrease : ℚ) (c : ℕ)
    (h1 : c < incrRevenue.length) (h2 : c < incrKpi.length)
    (h3 : c < incrWithMultiplier.length) (h4 : c < spend.length) :
    (spend.getD c 0 = 0 →
      (roiMetric useKpi incrRevenue incrKpi spend).getD c 0 = 0) ∧
    (spend.getD c 0 = 0 →
      (marginalRoiMetric incrWithMultiplier incrKpi spend
        incrementalIncrease).getD c 0 = 0) ∧
    ((roiMetric true incrRevenue incrKpi spend).getD c 0 = 0 →
      (cpikMetric incrRevenue incrKpi spend).getD c 0 = 0) := by
  refine ⟨?_, ?_, ?_⟩
  · intro hs
    unfold roiMetric
    cases useKpi <;>
      simp only [if_pos rfl, if_neg, Bool.false_eq_true, if_false, if_true] <;>
      rw [getD_zipWith _ _ _ _ (by assumption) h4, hs, divide_no_nan_zero_den]
  · intro hs
    unfold marginalRoiMetric
    have hsub : c < (List.zipWith (fun a b => a - b) incrWithMultiplier incrKpi).length := by
      rw [List.length_zipWith]
      omega
    have hmap : c < (spend.map (fun s => s * incrementalIncrease)).length := by
      rw [List.length_map]
      omega
    rw [getD_zipWith _ _ _ _ hsub hmap, getD_map _ _ _ h4, hs, zero_mul,
      divide_no_nan_zero_den]
  · intro hr0
    have hlen : c < (roiMetric true incrRevenue incrKpi spend).length := by
      unfold roiMetric
      rw [if_pos rfl, List.length_zipWith]
      omega
    unfold cpikMetric
    rw [getD_map _ _ _ hlen, hr0, divide_no_nan_zero_den]

/-- Witness for C10 at a concrete input: one channel with zero spend and
zero KPI-incremental outcome. -/
theorem claim_C10_witness :
    (0 : ℕ) < ([(3 : ℚ)]).length ∧ (0 : ℕ) < ([(0 : ℚ)]).length ∧
    ((([(0 : ℚ)]).getD 0 0 = 0 →
      (roiMetric false [(3 : ℚ)] [0] [0]).getD 0 0 = 0) ∧
    (([(0 : ℚ)]).getD 0 0 = 0 →
      (marginalRoiMetric [(7 : ℚ)] [0] [0] (1/100)).getD 0 0 = 0) ∧
    ((roiMetric true [(3 : ℚ)] [0] [0]).getD 0 0 = 0 →
      (cpikMetric [(3 : ℚ)] [0] [0]).getD 0 0 = 0)) :=
  ⟨by decide, by decide,
    claim_C10_zero_denominator false [(3 : ℚ)] [0] [(7 : ℚ)] [0] (1/100) 0
      (by decide) (by decide) (by decide) (by decide)⟩

end Meridian

namespace Meridian

/-!
## Summary metrics (`summary_metrics`)

The channel coordinate of the summary dataset is
`list(channels) + [ALL_CHANNELS]`. Incremental outcome is computed by
`compute_incremental_outcome_aggregate` (per-channel values with the
channel-sum appended); effectiveness divides it by the impressions (with
their own appended total); the marginal-ROI dataset appends a separately
computed total column. Both effectiveness and mROI datasets are then
masked by `.where(ds.channel != ALL_CHANNELS)`, which turns the aggregate
entry into NaN (`none`). -/

/-- `constants.ALL_CHANNELS`. -/
def allChannelsLabel : String := "All Channels"

/-- `Analyzer.compute_incremental_outcome_aggregate`: concatenate the
per-channel incremental outcome with its channel-axis sum. -/
def computeIncrementalOutcomeAggregate (incrementalOutcomePerChannel : List ℚ) : List ℚ :=
  incrementalOutcomePerChannel ++ [incrementalOutcomePerChannel.sum]

/-- `xr.Dataset.where(lambda ds: ds.channel != ALL_CHANNELS)`: entries at
the aggregate channel become NaN (`none`), all others keep their value. -/
def whereChannelNotAllChannels (labels : List String) (vals : List ℚ) :
    List (Option ℚ) :=
  List.zipWith (fun lab v => if lab = allChannelsLabel then none else some v)
    labels vals

/-- The summary dataset's channel coordinate. -/
def summaryChannelLabels (channels : List String) : List String :=
  channels ++ [allChannelsLabel]

/-- The fragment of `Analyzer.summary_metrics` the aggregate-row claim is
about: the incremental-outcome row (with the appended "All Channels"
total), the effectiveness row (incremental outcome / impressions, masked
at the aggregate entry) and the marginal-ROI row (per-channel mROI with
the appended total column, masked at the aggregate entry). -/
def summaryMetricsModel (channels : List String) (incr impressions mroi : List ℚ)
    (mroiTotal : ℚ) : List ℚ × List (Option ℚ) × List (Option ℚ) :=
  let labels := summaryChannelLabels channels
  let incrWithTotal := computeIncrementalOutcomeAggregate incr
  let impressionsWithTotal := impressions ++ [impressions.sum]
  let effectiveness := List.zipWith (fun a b => a / b) incrWithTotal impressionsWithTotal
  (incrWithTotal,
   whereChannelNotAllChannels labels effectiveness,
   whereChannelNotAllChannels labels (mroi ++ [mroiTotal]))

theorem getD_append_singleton_length {A : Type} (a : List A) (x d : A) :
    (a ++ [x]).getD a.length d = x := by
  rw [List.getD_eq_getElem _ _ (by simp)]
  exact List.getElem_concat_length a x a.length rfl _

theorem getD_append_left_of_lt {A : Type} (a b : List A) (c : ℕ) (d : A)
    (h : c < a.length) : (a ++ b).getD c d = a.getD c d := by
  rw [List.getD_eq_getElem _ _ (by rw [List.length_append]; omega),
    List.getD_eq_getElem _ _ h]
  exact List.getElem_append_left h

theorem getD_mem_of_lt {A : Type} (a : List A) (c : ℕ) (d : A)
    (h : c < a.length) : a.getD c d ∈ a := by
  rw [List.getD_eq_getElem _ _ h]
  exact List.getElem_mem h

theorem whereChannelNotAllChannels_getD (labels : List String) (vals : List ℚ)
    (c : ℕ) (d : Option ℚ) (hc : c < labels.length) (hv : c < vals.length) :
    (whereChannelNotAllChannels labels vals).getD c d
      = (if labels.getD c "" = allChannelsLabel then none
          else some (vals.getD c 0)) := by
  unfold whereChannelNotAllChannels
  have hz : c < (List.zipWith
      (fun lab v => if lab = allChannelsLabel then none else some (v : ℚ))
      labels vals).length := by
    rw [List.length_zipWith]
    omega
  rw [List.getD_eq_getElem _ _ hz, List.getElem_zipWith,
    ← List.getD_eq_getElem labels "" hc, ← List.getD_eq_getElem vals 0 hv]

/-- **C7**: in the summary metrics, the "All Channels" entry of the
incremental-outcome row equals the simple sum of the per-channel entries
(it is the appended channel-axis sum, not separately computed), while the
effectiveness and marginal-ROI rows hold NaN (`none`) at that aggregate
entry and ordinary numbers at every per-channel entry. -/
theorem claim_C7_summary_aggregate (channels : List String)
    (incr impressions mroi : List ℚ) (mroiTotal : ℚ)
    (hlen1 : channels.length = incr.length)
    (hlen2 : channels.length = impressions.length)
    (hlen3 : channels.length = mroi.length)
    (hnot : allChannelsLabel ∉ channels) :
    ((summaryMetricsModel channels incr impressions mroi mroiTotal).1.getD
        channels.length 0
      = ((summaryMetricsModel channels incr impressions mroi mroiTotal).1.take
          channels.length).sum) ∧
    ((summaryMetricsModel channels incr impressions mroi mroiTotal).2.1.getD
        channels.length (some 0) = none) ∧
    ((summaryMetricsModel channels incr impressions mroi mroiTotal).2.2.getD
        channels.length (some 0) = none) ∧
    (∀ c < channels.length, ∃ v : ℚ,
      (summaryMetricsModel channels incr impressions mroi mroiTotal).2.2.getD
        c none = some v) := by
  unfold summaryMetricsModel summaryChannelLabels computeIncrementalOutcomeAggregate
  simp only []
  have hlabels : (channels ++ [allChannelsLabel]).getD channels.length ""
      = allChannelsLabel := getD_append_singleton_length channels _ ""
  refine ⟨?_, ?_, ?_, ?_⟩
  · rw [hlen1, getD_append_singleton_length, List.take_left]
  · rw [whereChannelNotAllChannels_getD _ _ _ _ (by simp) (by
      rw [List.length_zipWith, List.length_append, List.length_append]
      simp only [List.length_singleton]
      omega)]
    rw [hlabels, if_pos rfl]
  · rw [whereChannelNotAllChannels_getD _ _ _ _ (by simp) (by
      rw [List.length_append]
      simp only [List.length_singleton]
      omega)]
    rw [hlabels, if_pos rfl]
  · intro c hc
    rw [whereChannelNotAllChannels_getD _ _ _ _ (by
        rw [List.length_append]
        simp only [List.length_singleton]
        omega)
      (by
        rw [List.length_append]
        simp only [List.length_singleton]
        omega)]
    rw [getD_append_left_of_lt _ _ _ _ hc]
    have hne : channels.getD c "" ≠ allChannelsLabel := by
      intro heq
      exact hnot (heq ▸ getD_mem_of_lt channels c "" hc)
    rw [if_neg hne]
    exact ⟨_, rfl⟩

/-- Witness for C7 at a concrete input: two channels with incremental
outcomes `[3, 4]`, impressions `[2, 2]`, marginal ROI `[5, 6]` and a
separately computed mROI total `7`. -/
theorem claim_C7_witness :
    (["TV", "Radio"].length = ([(3 : ℚ), 4]).length) ∧
    (["TV", "Radio"].length = ([(2 : ℚ), 2]).length) ∧
    (["TV", "Radio"].length = ([(5 : ℚ), 6]).length) ∧
    allChannelsLabel ∉ ["TV", "Radio"] ∧
    (((summaryMetricsModel ["TV", "Radio"] [3, 4] [2, 2] [5, 6] 7).1.getD 2 0
        = ((summaryMetricsModel ["TV", "Radio"] [3, 4] [2, 2] [5, 6] 7).1.take 2).sum) ∧
      ((summaryMetricsModel ["TV", "Radio"] [3, 4] [2, 2] [5, 6] 7).2.1.getD 2 (some 0) = none) ∧
      ((summaryMetricsModel ["TV", "Radio"] [3, 4] [2, 2] [5, 6] 7).2.2.getD 2 (some 0) = none) ∧
      (∀ c < (["TV", "Radio"]).length, ∃ v : ℚ,
        (summaryMetricsModel ["TV", "Radio"] [3, 4] [2, 2] [5, 6] 7).2.2.getD c none = some v)) :=
  ⟨by decide, by decide, by decide, by decide,
    claim_C7_summary_aggregate ["TV", "Radio"] [3, 4] [2, 2] [5, 6] 7
      (by decide) (by decide) (by decide) (by decide)⟩

end Meridian

namespace Meridian

/-!
## Optimal frequency search (`optimal_freq`)

The source evaluates the posterior-mean ROI at every candidate frequency
of the grid (`metric_grid[i, :, 0]`), selects per RF channel the index
`np.nanargmax(metric_grid[:, :, 0], axis=0)` — the first occurrence of
the maximum in ascending grid order — and recomputes reach as
`frequency * reach / new_frequency` so that impressions are unchanged.
The heavy per-gridpoint posterior-mean-ROI computation is abstracted as a
function `meanRoiAt` of the candidate frequency (for one RF channel); the
selection rule and the reach recomputation are modelled from the source.
-/

/-- `np.nanargmax` over a vector: the index of the first occurrence of the
maximum value (the embedding carries no NaN entries). -/
def nanargmax : List ℚ → ℕ
  | [] => 0
  | [_] => 0
  | x :: y :: rest =>
    let j := nanargmax (y :: rest)
    if (y :: rest).getD j 0 > x then j + 1 else 0

theorem nanargmax_spec (l : List ℚ) :
    (l ≠ [] → nanargmax l < l.length) ∧
    (∀ j < l.length, l.getD j 0 ≤ l.getD (nanargmax l) 0) ∧
    (∀ j < nanargmax l, l.getD j 0 < l.getD (nanargmax l) 0) := by
  induction l with
  | nil =>
    refine ⟨fun h => absurd rfl h, ?_, ?_⟩
    · intro j hj
      simp at hj
    · intro j hj
      simp [nanargmax] at hj
  | cons x rest ih =>
    cases rest with
    | nil =>
      refine ⟨fun _ => by simp [nanargmax], ?_, ?_⟩
      · intro j hj
        simp only [List.length_singleton] at hj
        interval_cases j
        · simp [nanargmax]
      · intro j hj
        simp [nanargmax] at hj
    | cons y t =>
      obtain ⟨ihlen, ihmax, ihfirst⟩ := ih
      have hlen' : nanargmax (y :: t) < (y :: t).length := ihlen (by simp)
      by_cases hgt : (y :: t).getD (nanargmax (y :: t)) 0 > x
      · have heq : nanargmax (x :: y :: t) = nanargmax (y :: t) + 1 := by
          simp only [nanargmax, if_pos hgt]
        refine ⟨fun _ => ?_, ?_, ?_⟩
        · rw [heq]
          simpa using hlen'
        · intro j hj
          rw [heq, List.getD_cons_succ]
          cases j with
          | zero => exact le_of_lt hgt
          | succ k =>
            rw [List.getD_cons_succ]
            exact ihmax k (by simpa using hj)
        · intro j hj
          rw [heq] at hj
          rw [heq, List.getD_cons_succ]
          cases j with
          | zero => exact hgt
          | succ k =>
            rw [List.getD_cons_succ]
            exact ihfirst k (by omega)
      · have heq : nanargmax (x :: y :: t) = 0 := by
          simp only [nanargmax, if_neg hgt]
        push_neg at hgt
        refine ⟨fun _ => by rw [heq]; simp, ?_, ?_⟩
        · intro j hj
          rw [heq, List.getD_cons_zero]
          cases j with
          | zero => simp
          | succ k =>
            rw [List.getD_cons_succ]
            exact le_trans (ihmax k (by simpa using hj)) hgt
        · intro j hj
          rw [heq] at hj
          omega

/-- The per-channel grid-selection of `optimal_freq`: the index that
`np.nanargmax` picks over the posterior-mean ROIs of the ordered grid. -/
def optimalFreqIdx (meanRoiAt : ℚ → ℚ) (freqGrid : List ℚ) : ℕ :=
  nanargmax (freqGrid.map meanRoiAt)

/-- The selected optimal frequency: the grid value at the argmax index. -/
def optimalFrequency (meanRoiAt : ℚ → ℚ) (freqGrid : List ℚ) : ℚ :=
  freqGrid.getD (optimalFreqIdx meanRoiAt freqGrid) 0

/-- The reach recomputed at a candidate frequency, per `(geo, time)` cell:
`new_reach = frequency * reach / new_frequency`. -/
def newReachCell (reach frequency newFrequency : ℚ) : ℚ :=
  frequency * reach / newFrequency

/-- **C8**: `optimal_freq` selects the grid frequency maximizing the
posterior-mean ROI over the ordered grid, breaking ties by first
occurrence in ascending grid order (every strictly earlier grid point has
strictly smaller mean ROI), and the reach recomputed at any nonzero
candidate frequency keeps `reach × frequency` equal to the historical
impressions, elementwise. -/
theorem claim_C8_optimal_freq (meanRoiAt : ℚ → ℚ) (freqGrid : List ℚ)
    (reach frequency : ℚ) :
    (∀ j < freqGrid.length,
      (freqGrid.map meanRoiAt).getD j 0
        ≤ (freqGrid.map meanRoiAt).getD (optimalFreqIdx meanRoiAt freqGrid) 0) ∧
    (∀ j < optimalFreqIdx meanRoiAt freqGrid,
      (freqGrid.map meanRoiAt).getD j 0
        < (freqGrid.map meanRoiAt).getD (optimalFreqIdx meanRoiAt freqGrid) 0) ∧
    (∀ f ∈ freqGrid, f ≠ 0 →
      newReachCell reach frequency f * f = reach * frequency) := by
  obtain ⟨_, hmax, hfirst⟩ := nanargmax_spec (freqGrid.map meanRoiAt)
  refine ⟨?_, hfirst, ?_⟩
  · intro j hj
    exact hmax j (by simpa using hj)
  · intro f _ hf
    unfold newReachCell
    field_simp
    ring

/-- Witness for C8 at the spec's example grid `[1.0, 1.5, 2.0]` with a
synthetic mean-ROI curve peaking exactly at `1.5`: the selected frequency
is `1.5`, and the recomputed reach keeps impressions constant. -/
theorem claim_C8_witness :
    ((0 : ℕ) < ([(1 : ℚ), 3/2, 2]).length) ∧
    ((3/2 : ℚ) ∈ [(1 : ℚ), 3/2, 2]) ∧ ((3/2 : ℚ) ≠ 0) ∧
    optimalFrequency (fun f => 6 * f - 2 * f ^ 2) [(1 : ℚ), 3/2, 2] = 3/2 ∧
    (([(1 : ℚ), 3/2, 2].map (fun f => 6 * f - 2 * f ^ 2)).getD 0 0
      ≤ ([(1 : ℚ), 3/2, 2].map (fun f => 6 * f - 2 * f ^ 2)).getD
          (optimalFreqIdx (fun f => 6 * f - 2 * f ^ 2) [(1 : ℚ), 3/2, 2]) 0) ∧
    newReachCell 4 6 (3/2) * (3/2) = 4 * 6 :=
  ⟨by decide, by simp, by norm_num,
    by norm_num [optimalFrequency, optimalFreqIdx, nanargmax],
    (claim_C8_optimal_freq (fun f => 6 * f - 2 * f ^ 2) [(1 : ℚ), 3/2, 2] 4 6).1
      0 (by decide),
    (claim_C8_optimal_freq (fun f => 6 * f - 2 * f ^ 2) [(1 : ℚ), 3/2, 2] 4 6).2.2
      (3/2) (by simp) (by norm_num)⟩

end Meridian

namespace Meridian

/-!
## R-hat convergence failure (`visualizer.ModelDiagnostics.plot_rhat_boxplot`)

The diagnostic computation flattens the per-parameter R-hat tensors into
one vector of values; a parameter with a deterministic prior yields NaN,
modelled as `none`. If any value exceeds `1e10` — pandas' comparison is
false on NaN — the source raises `MCMCSamplingError` instead of returning
the values; otherwise the NaN rows are dropped and the numeric values are
returned (for plotting). -/

/-- The pathological R-hat threshold (`1e10`). -/
def badRhatFailureThreshold : ℚ := 10000000000

/-- `rhat > 1e10` for one flattened entry; NaN (`none`) compares false. -/
def rhatExceeds (threshold : ℚ) (r : Option ℚ) : Bool :=
  match r with
  | none => false
  | some v => decide (threshold < v)

/-- The error path of `plot_rhat_boxplot`: raise `MCMCSamplingError` when
any R-hat exceeds the threshold, otherwise drop NaNs and return the
numeric values. -/
def plotRhatBoxplotCheck (rhats : List (Option ℚ)) : Except String (List ℚ) :=
  if rhats.any (rhatExceeds badRhatFailureThreshold) then
    Except.error "MCMC sampling failed with a maximum R-hat value above 1e10."
  else
    Except.ok (rhats.filterMap id)

/-- **C9**: when the R-hat diagnostic computation contains a pathologically
large value (exceeding `1e10`, indicating MCMC sampling failure), the
condition is surfaced as a distinct fatal error and no numeric result is
returned. -/
theorem claim_C9_convergence_failure (rhats : List (Option ℚ)) (v : ℚ)
    (hmem : some v ∈ rhats) (hbig : badRhatFailureThreshold < v) :
    (∃ e, plotRhatBoxplotCheck rhats = Except.error e) ∧
    (∀ numeric, plotRhatBoxplotCheck rhats ≠ Except.ok numeric) := by
  have hany : rhats.any (rhatExceeds badRhatFailureThreshold) = true := by
    rw [List.any_eq_true]
    refine ⟨some v, hmem, ?_⟩
    unfold rhatExceeds
    simpa using hbig
  constructor
  · refine ⟨"MCMC sampling failed with a maximum R-hat value above 1e10.", ?_⟩
    unfold plotRhatBoxplotCheck
    rw [if_pos hany]
  · intro numeric
    unfold plotRhatBoxplotCheck
    rw [if_pos hany]
    simp

/-- Witness for C9 at a concrete input: an R-hat vector containing the
pathological value `2e10` (and a NaN entry from a deterministic prior). -/
theorem claim_C9_witness :
    some (20000000000 : ℚ) ∈ [some (1 : ℚ), none, some 20000000000] ∧
    badRhatFailureThreshold < (20000000000 : ℚ) ∧
    ((∃ e, plotRhatBoxplotCheck [some (1 : ℚ), none, some 20000000000]
        = Except.error e) ∧
      (∀ numeric, plotRhatBoxplotCheck [some (1 : ℚ), none, some 20000000000]
        ≠ Except.ok numeric)) :=
  ⟨by simp, by norm_num [badRhatFailureThreshold],
    claim_C9_convergence_failure [some (1 : ℚ), none, some 20000000000]
      20000000000 (by simp) (by norm_num [badRhatFailureThreshold])⟩

end Meridian
